import Mathlib

/-!
# Verification of `neuropythy/registration/models.py`

A shallow embedding of the retinotopy model code in
`neuropythy/registration/models.py`, together with theorems settling the
frozen claims about that code.

Conventions of the embedding:

* Python floats are modelled as `ℚ` (exact arithmetic standing in for the
  floating-point values the code manipulates); `numpy` 1-D arrays are `List ℚ`.
* Area labels are `ℕ`: the class contract states the `areas` argument is `0`
  on boundary vertices and a positive integer label elsewhere, and the code
  applies `map(int, area_ids)` on input.
* Fallible operations return `Except Err _`, with `Err` enumerating the
  run-time failures the Python code can raise on the modelled paths.
* The geometry collaborator `neuropythy.geometry.Mesh` is not part of the
  source under verification; its `interpolate` operation is modelled from the
  spec (§4.3) as exact piecewise-linear barycentric interpolation that yields
  `none` for points outside triangulation coverage.
* The complex-plane encoding `rho * exp(1j*(90-theta)/180*pi)` is irrational
  for general angles, so the operational model is parameterised by a function
  `enc : ℚ → ℚ → ℚ × ℚ` standing for the float evaluation of that encoding;
  its real-number semantics is the separate definition `encode : ℝ → ℝ → ℂ`
  about which the encoding claim is proved.
-/

namespace Neuropythy

/-- Run-time failures of the modelled Python paths:
`lengthMismatch` is the explicit `RuntimeError('... must be the same length!')`
raised by `SchiraModel`; `broadcastError` is numpy's failure to broadcast two
1-D arrays of incompatible lengths; `raggedArray` stands for the failures
caused by building a non-rectangular nested sequence (era-numpy produces an
object array that the interpolator, which requires a sequence of 2-D points,
rejects); `keyError a` is the Python `KeyError` from `self.inverse[area]`;
`indexError` is an out-of-bounds (or 0-d) numpy index such as `rho[k]`;
`nameError` is the `NameError` raised by the reference to the undefined
module-level name `angle_to_cortex` on line 247. -/
inductive Err where
  | lengthMismatch
  | broadcastError
  | raggedArray
  | keyError (a : ℕ)
  | indexError
  | nameError
  deriving DecidableEq, Repr

/-- A triangle: an ordered triple of vertex indices. -/
abbrev Tri := ℕ × ℕ × ℕ

/-- A triangulated 2-D mesh: triangles plus one coordinate per vertex
(`geo.Mesh(triangles, coords)` as used by the model code). -/
structure Mesh where
  tris : List Tri
  coords : List (ℚ × ℚ)
  deriving DecidableEq, Repr

/-- 2-D determinant `ax*by - ay*bx` (helper for barycentric coordinates). -/
def det2 (ax ay bx By : ℚ) : ℚ := ax * By - ay * bx

/-- Modelled from the spec (§4.3): the value a piecewise-linear interpolator
assigns to query point `q` from the triangle `(p1, p2, p3)` carrying vertex
data `d1 d2 d3`: the barycentric combination when `q` lies inside the
triangle (all weights nonnegative), `none` otherwise or when the triangle is
degenerate. -/
def baryValue (p1 p2 p3 q : ℚ × ℚ) (d1 d2 d3 : ℚ) : Option ℚ :=
  let d := det2 (p2.1 - p1.1) (p2.2 - p1.2) (p3.1 - p1.1) (p3.2 - p1.2)
  if d = 0 then none
  else
    let w2 := det2 (q.1 - p1.1) (q.2 - p1.2) (p3.1 - p1.1) (p3.2 - p1.2) / d
    let w3 := det2 (p2.1 - p1.1) (p2.2 - p1.2) (q.1 - p1.1) (q.2 - p1.2) / d
    let w1 := 1 - w2 - w3
    if 0 ≤ w1 ∧ 0 ≤ w2 ∧ 0 ≤ w3 then some (w1 * d1 + w2 * d2 + w3 * d3) else none

/-- Modelled from the spec (§4.3): `geo.Mesh.interpolate` at a single query
point — the piecewise-linearly interpolated value of `data` at `q`, or
`none` when `q` lies outside every triangle of the mesh (no extrapolation). -/
def interpolateAt (m : Mesh) (data : List ℚ) (q : ℚ × ℚ) : Option ℚ :=
  m.tris.findSome? fun t =>
    baryValue (m.coords.getD t.1 (0,0)) (m.coords.getD t.2.1 (0,0))
      (m.coords.getD t.2.2 (0,0)) q
      (data.getD t.1 0) (data.getD t.2.1 0) (data.getD t.2.2 0)

/-- Modelled from the spec (§4.3): `geo.Mesh.interpolate(points, data,
smoothing=s)` — one interpolated value (or `none`) per query point. The
smoothing parameter's pre-smoothing algorithm is unspecified by the spec and
is modelled as the identity pre-processing; the model code always passes
`smoothing=1`. -/
def Mesh.interpolate (m : Mesh) (pts : List (ℚ × ℚ)) (data : List ℚ)
    (smoothing : ℕ) : List (Option ℚ) :=
  let _ := smoothing
  pts.map (interpolateAt m data)

/-! ## Construction helpers (`RetinotopyMeshModel.__init__`, lines 160-202) -/

/-- The labels of the three vertices of triangle `t` (`area_ids[t]`).
Vertex indices are assumed valid, as the class contract requires
(an out-of-range index raises `IndexError` in Python; `getD _ 0` is
never exercised with its default in the verified statements). -/
def triLabels (ids : List ℕ) (t : Tri) : List ℕ :=
  [ids.getD t.1 0, ids.getD t.2.1 0, ids.getD t.2.2 0]

/-- `set(area_ids[t])`: the set of labels appearing on triangle `t`. -/
def triLabelSet (ids : List ℕ) (t : Tri) : Finset ℕ :=
  (triLabels ids t).toFinset

/-- Line 180: the triangles bound to area `A`'s inverse mesh —
`[t for t in triangles if (set(area_ids[t]) - set([0])) == set([area])]`. -/
def invTriangles (triangles : List Tri) (ids : List ℕ) (A : ℕ) : List Tri :=
  triangles.filter fun t => triLabelSet ids t \ {0} = {A}

/-- Ascending insertion of `a` into an already sorted list. -/
def insertAsc (a : ℕ) : List ℕ → List ℕ
  | [] => [a]
  | b :: l => if a ≤ b then a :: b :: l else b :: insertAsc a l

/-- Insertion sort, ascending (`sorted(...)` on distinct labels). -/
def sortAsc (l : List ℕ) : List ℕ := l.foldr insertAsc []

/-- `sorted(list(set(ids) - set([0])))`: the distinct non-zero labels in
ascending order. (Python's `set` iteration order is unspecified; the code
sorts before iterating in `angle_to_cortex`, and for the `self.inverse`
dictionary only keyed lookup matters, so a sorted key list is a faithful
deterministic representation.) -/
def sortedNonzero (ids : List ℕ) : List ℕ :=
  sortAsc ((ids.filter fun a => a ≠ 0).dedup)

/-- The vertex indices of triangle `t` as a list. -/
def triVerts (t : Tri) : List ℕ := [t.1, t.2.1, t.2.2]

/-- Line 195: `[i for i in t if area_ids[i] != 0]` — the "inside" vertices of
a triangle (non-zero label). -/
def insideOf (ids : List ℕ) (t : Tri) : List ℕ :=
  (triVerts t).filter fun i => ids.getD i 0 ≠ 0

/-- Line 194: `[i for i in t if area_ids[i] == 0]` — the "boundary" vertices
of a triangle (label 0). -/
def boundOf (ids : List ℕ) (t : Tri) : List ℕ :=
  (triVerts t).filter fun i => ids.getD i 0 = 0

/-- Lines 191-199: the `boundaryNeis` entry of vertex `b` — the union, over
all triangles that contain `b` among their boundary (label-0) vertices and
have at least one inside (non-zero-label) vertex, of those triangles' inside
vertices. Represented as a duplicate-free list; the Python value is a `set`,
and only its element set matters (it is consumed by `np.mean` over the set
and by the emptiness test). -/
def neisOf (triangles : List Tri) (ids : List ℕ) (b : ℕ) : List ℕ :=
  (triangles.foldr
    (fun t acc =>
      if b ∈ boundOf ids t ∧ insideOf ids t ≠ [] then acc ++ insideOf ids t
      else acc)
    []).dedup

/-- Lines 200-201: `area_ids[b] = np.mean(area_ids[list(neis)])` for every
`boundaryNeis` entry. `area_ids` is an integer numpy array (line 167), so
the float mean is truncated on storage; labels are nonnegative, so the
truncation is `ℕ`-division of the sum by the count. The Python loop assigns
sequentially in unspecified dict order, but every assigned index has original
label 0 while every neighbour read has original label non-zero, so the
sequential update equals this simultaneous one. A vertex not in
`boundaryNeis` (in particular any vertex with non-zero label, and any label-0
vertex with no inside neighbour) keeps its original label. -/
def repairedIds (triangles : List Tri) (ids : List ℕ) : List ℕ :=
  (List.range ids.length).map fun b =>
    let neis := neisOf triangles ids b
    if neis = [] then ids.getD b 0 else (neis.map fun j => ids.getD j 0).sum / neis.length

/-! ## The affine transform (3x3 homogeneous, lines 182-183) -/

/-- A 3x3 matrix as three rows of three rationals. -/
abbrev Mat3 := (ℚ × ℚ × ℚ) × (ℚ × ℚ × ℚ) × (ℚ × ℚ × ℚ)

/-- Determinant of a `Mat3`. -/
def det3 (T : Mat3) : ℚ :=
  T.1.1 * (T.2.1.2.1 * T.2.2.2.2 - T.2.1.2.2 * T.2.2.2.1)
  - T.1.2.1 * (T.2.1.1 * T.2.2.2.2 - T.2.1.2.2 * T.2.2.1)
  + T.1.2.2 * (T.2.1.1 * T.2.2.2.1 - T.2.1.2.1 * T.2.2.1)

/-- Modelled from the spec (§6): the "invert a 3x3 matrix" primitive
(`numpy.linalg.inv`), by the adjugate formula. On a singular input numpy
raises a fatal construction error (§7); there `det3 T = 0` and this model
returns the zero matrix (division by zero), a value no verified statement
exercises. -/
def inv3 (T : Mat3) : Mat3 :=
  let d := det3 T
  let a := T.1.1; let b := T.1.2.1; let c := T.1.2.2
  let e := T.2.1.1; let f := T.2.1.2.1; let g := T.2.1.2.2
  let h := T.2.2.1; let i := T.2.2.2.1; let j := T.2.2.2.2
  (((f*j - g*i)/d, (c*i - b*j)/d, (b*g - c*f)/d),
   ((g*h - e*j)/d, (a*j - c*h)/d, (c*e - a*g)/d),
   ((e*i - f*h)/d, (b*h - a*i)/d, (a*f - b*e)/d))

/-- `np.dot(tx, [x, y, 1])[0:2]`: apply a homogeneous transform to a 2-D
point and keep the first two components. -/
def applyTx (T : Mat3) (p : ℚ × ℚ) : ℚ × ℚ :=
  (T.1.1 * p.1 + T.1.2.1 * p.2 + T.1.2.2,
   T.2.1.1 * p.1 + T.2.1.2.1 * p.2 + T.2.1.2.2)

/-! ## The mesh-based model (`RetinotopyMeshModel`) -/

/-- The state of a constructed `RetinotopyMeshModel`: the forward mesh, the
per-area inverse meshes (`self.inverse`, a mapping from area label to mesh,
represented as an association list), the optional transform and its
precomputed inverse, and the `self.data` arrays. `enc` is the
vertex/query encoding function (see the module docstring): the float
evaluation of `rho * exp(1j*(90-theta)/180*pi)` as an `(Re, Im)` pair. -/
structure RMModel where
  enc : ℚ → ℚ → ℚ × ℚ
  forward : Mesh
  inverse : List (ℕ × Mesh)
  transform : Option Mat3
  itransform : Option Mat3
  x : List ℚ
  y : List ℚ
  polar_angle : List ℚ
  eccentricity : List ℚ
  id : List ℕ

/-- Dictionary lookup `self.inverse[area]`. -/
def lookupMesh (A : ℕ) : List (ℕ × Mesh) → Option Mesh
  | [] => none
  | (B, m) :: rest => if A = B then some m else lookupMesh A rest

/-- `RetinotopyMeshModel.__init__` (lines 160-202). Inputs are taken in the
`(n x 3)` / `(n x 2)` orientation (the code's transposition auto-detection on
the other orientation is numpy plumbing not modelled here). Steps, in source
order: build the forward mesh; encode every vertex's (angle, eccentricity)
into visual-field coordinates; build one inverse mesh per distinct non-zero
label from the *original* labels; record the transform and its precomputed
inverse; save the data arrays; repair the label-0 boundary vertices
(`self.data['id']` holds the repaired labels; the inverse meshes were built
before the repair). -/
def mkModel (enc : ℚ → ℚ → ℚ × ℚ) (triangles : List Tri)
    (coordinates : List (ℚ × ℚ)) (angles eccens : List ℚ)
    (area_ids : List ℕ) (transform : Option Mat3) : RMModel :=
  let invCoords := List.zipWith (fun θ ρ => enc θ ρ) angles eccens
  { enc := enc
    forward := ⟨triangles, coordinates⟩
    inverse := (sortedNonzero area_ids).map fun A =>
      (A, ⟨invTriangles triangles area_ids A, invCoords⟩)
    transform := transform
    itransform := transform.map inv3
    x := coordinates.map Prod.fst
    y := coordinates.map Prod.snd
    polar_angle := angles
    eccentricity := eccens
    id := repairedIds triangles area_ids }

/-- A Python argument to the query methods: either a number (no `__iter__`
attribute) or a flat sequence of numbers. -/
inductive QIn where
  | num (q : ℚ)
  | seq (l : List ℚ)

/-- An output triple `(polar_angle, eccentricity, id)`. -/
abbrev Vec3 := ℚ × ℚ × ℚ

/-! ## `cortex_to_angle` (lines 204-216) -/

/-- Lines 209-210: the point handed to the interpolator — the raw `(x, y)`
when there is no transform, else the inverse-transformed point. -/
def txPoint (itx : Option Mat3) (p : ℚ × ℚ) : ℚ × ℚ :=
  match itx with
  | none => p
  | some T => applyTx T p

/-- Lines 212-216 on two equal-length coordinate lists: interpolate
`polar_angle`, `eccentricity` and `id` from the forward mesh at the
(inverse-transformed) points and zip the results, substituting `(0, 0, 0)`
whenever the `id` interpolation yields no value (`area is None`). When the
`id` value is present the angle and eccentricity values are present as well
(all three interpolations use the same mesh and point, and `interpolateAt`
misses independently of the data array), so the `getD 0` defaults in the
kept branch are never exercised. -/
def c2aCore (m : RMModel) (xs ys : List ℚ) : List Vec3 :=
  let pts := (List.zip xs ys).map (txPoint m.itransform)
  let ia := m.forward.interpolate pts m.polar_angle 1
  let ie := m.forward.interpolate pts m.eccentricity 1
  let ii := m.forward.interpolate pts (m.id.map fun n => (n : ℚ)) 1
  (List.zip ia (List.zip ie ii)).map fun aei =>
    match aei.2.2 with
    | some ar => (aei.1.getD 0, aei.2.1.getD 0, ar)
    | none => (0, 0, 0)

/-- `RetinotopyMeshModel.cortex_to_angle` (lines 204-216). A scalar pair is
routed through the vectorized path as `self.cortex_to_angle([x], [y])[0]`.
A mixed scalar/sequence call nests a list inside a singleton list, and two
sequences of unequal length are ragged; either way `np.asarray([x, y])`
yields a non-rectangular (object-dtype) array that the interpolator — which
requires a rectangular sequence of 2-D points — fails on: modelled as
`Err.raggedArray`. -/
def rmCortexToAngle (m : RMModel) : QIn → QIn → Except Err (Vec3 ⊕ List Vec3)
  | .num x, .num y =>
    match c2aCore m [x] [y] with
    | [] => .error .indexError
    | r :: _ => .ok (.inl r)
  | .num _, .seq _ => .error .raggedArray
  | .seq _, .num _ => .error .raggedArray
  | .seq xs, .seq ys =>
    if xs.length = ys.length then .ok (.inr (c2aCore m xs ys))
    else .error .raggedArray

/-! ## `angle_to_cortex` (lines 218-248) -/

/-- A per-area, per-point result entry: the interpolated `(x, y)` pair, each
component `none` when the query point missed the area's inverse mesh. -/
abbrev PairO := Option ℚ × Option ℚ

/-- numpy 1-D broadcasting for the elementwise combination of two arrays
(line 224, `rho * np.exp(...theta...)`): equal lengths combine pairwise, a
length-1 array broadcasts against the other, and any other combination
raises a broadcast error. -/
def numpyBroadcast (f : ℚ → ℚ → α) (as bs : List ℚ) : Except Err (List α) :=
  if as.length = bs.length then .ok (List.zipWith f as bs)
  else if as.length = 1 then .ok (bs.map (f (as.getD 0 0)))
  else if bs.length = 1 then .ok (as.map fun a => f a (bs.getD 0 0))
  else .error .broadcastError

/-- Lines 231-232 for one area: look the area up in `self.inverse`
(Python `KeyError` when absent) and interpolate the cortical `x` and `y`
data at the query coordinates; the `(n x 2)` per-area block after the
`transpose((0,2,1))` of line 235 is the zip of the two interpolations. -/
def a2cRows (m : RMModel) (coords : List (ℚ × ℚ)) (A : ℕ) :
    Except Err (List PairO) :=
  match lookupMesh A m.inverse with
  | none => .error (.keyError A)
  | some mesh =>
    .ok (List.zip (mesh.interpolate coords m.x 1) (mesh.interpolate coords m.y 1))

/-- Left-to-right evaluation of a Python list comprehension whose body can
raise: the first failure aborts the whole comprehension. -/
def mapExcept (f : α → Except Err β) : List α → Except Err (List β)
  | [] => .ok []
  | a :: l =>
    match f a with
    | .error e => .error e
    | .ok b =>
      match mapExcept f l with
      | .error e => .error e
      | .ok bs => .ok (b :: bs)

/-- Lines 237-240: the forward transform applied to one `(x, y)` entry —
`np.dot(tx, [xy[0], xy[1], 1])[0:2] if xy[0] is not None else [None, None]`.
The code tests only `xy[0]`; both components of an entry are always present
or absent together, so the `getD 0` on the second component is never
exercised with its default. -/
def txPair (T : Mat3) (p : PairO) : PairO :=
  match p.1 with
  | none => (none, none)
  | some x0 =>
    let q := applyTx T (x0, p.2.getD 0)
    (some q.1, some q.2)

/-- Lines 230-240: the per-area result blocks for the given query
coordinates — one block per distinct non-zero value of the *repaired*
`self.data['id']`, in ascending label order, with the forward transform
applied when present. -/
def a2cCore (m : RMModel) (coords : List (ℚ × ℚ)) :
    Except Err (List (List PairO)) :=
  match mapExcept (a2cRows m coords) (sortedNonzero m.id) with
  | .error e => .error e
  | .ok res =>
    match m.transform with
    | none => .ok res
    | some T => .ok (res.map (List.map (txPair T)))

/-- `None in set(row.flatten())`: the entry lost at least one component. -/
def rowHasNone (p : PairO) : Bool := p.1.isNone || p.2.isNone

/-- Indexing `rho[k]` in the fallback scan of lines 243-247. After
`rho = np.asarray(rho)` the array is 0-d when the argument was a scalar —
indexing it raises `IndexError` for every `k` — and 1-d when it was a
sequence, where only `k < len(rho)` is valid. -/
def rhoIndex : Option (List ℚ) → ℕ → Except Err ℚ
  | none, _ => .error .indexError
  | some l, k =>
    match l.get? k with
    | none => .error .indexError
    | some r => .ok r

/-- Lines 244-247 for one area block, scanning entries at positions `k`,
`k+1`, ...: when an entry has a missing component, `rho[k]` is evaluated and,
if it lies in `(86, 90]`, the code executes
`res[i] = angle_to_cortex(theta[k], rho[k] - 0.5)` — a reference to the
undefined module-level name `angle_to_cortex` (line 247 is missing `self.`),
which raises `NameError`. -/
def scanRow (rho : Option (List ℚ)) : List PairO → ℕ → Except Err Unit
  | [], _ => .ok ()
  | p :: rest, k =>
    if rowHasNone p then
      match rhoIndex rho k with
      | .error e => .error e
      | .ok r =>
        if 86 < r ∧ r ≤ 90 then .error .nameError
        else scanRow rho rest (k + 1)
    else scanRow rho rest (k + 1)

/-- Lines 243-247: the outer fallback scan over the area blocks, in order. -/
def scanAll (rho : Option (List ℚ)) : List (List PairO) → Except Err Unit
  | [] => .ok ()
  | row :: rest =>
    match scanRow rho row 0 with
    | .error e => .error e
    | .ok _ => scanAll rho rest

/-- The vectorized body of `angle_to_cortex` for two 1-D array arguments:
encode (with broadcasting), build the per-area blocks, run the fallback
scan, and return the blocks. -/
def a2cVecL (m : RMModel) (θs ρs : List ℚ) : Except Err (List (List PairO)) :=
  match numpyBroadcast (fun θ ρ => m.enc θ ρ) θs ρs with
  | .error e => .error e
  | .ok coords =>
    match a2cCore m coords with
    | .error e => .error e
    | .ok res =>
      match scanAll (some ρs) res with
      | .error e => .error e
      | .ok _ => .ok res

/-- The vectorized body of `angle_to_cortex` when `theta` is a 1-D array and
`rho` a scalar: `rho * np.exp(...)` broadcasts the scalar elementwise, and in
the fallback scan `rho` is a 0-d array whose indexing raises `IndexError`. -/
def a2cVecS (m : RMModel) (θs : List ℚ) (ρ : ℚ) : Except Err (List (List PairO)) :=
  match a2cCore m (θs.map fun θ => m.enc θ ρ) with
  | .error e => .error e
  | .ok res =>
    match scanAll none res with
    | .error e => .error e
    | .ok _ => .ok res

/-- `RetinotopyMeshModel.angle_to_cortex` (lines 218-248). A scalar pair is
routed through the vectorized path as `self.angle_to_cortex([theta],
[rho])[:,0]` (the leading entry of each area block). A scalar `theta` with a
sequence `rho` wraps the sequence in a singleton list, so `np.asarray(rho)`
is `(1, n)`-shaped and the coordinate array handed to the interpolator is
3-dimensional rather than a sequence of 2-D points: modelled as
`Err.raggedArray`. -/
def rmAngleToCortex (m : RMModel) : QIn → QIn → Except Err (List PairO ⊕ List (List PairO))
  | .num θ, .num ρ =>
    match a2cVecL m [θ] [ρ] with
    | .error e => .error e
    | .ok res => .ok (.inl (res.map fun row => row.getD 0 (none, none)))
  | .num _, .seq _ => .error .raggedArray
  | .seq θs, .num ρ =>
    match a2cVecS m θs ρ with
    | .error e => .error e
    | .ok res => .ok (.inr res)
  | .seq θs, .seq ρs =>
    match a2cVecL m θs ρs with
    | .error e => .error e
    | .ok res => .ok (.inr res)

/-! ## `SchiraModel` dispatch (lines 118-147)

The analytic model delegates the numerics to the external Java object
(`self._java_object.angleToCortex` / `.cortexToAngle`, abstracted below as
`jac`/`jacS`); the Python layer under verification is the scalar/sequence
dispatch, the equal-length check, and the broadcasting of a scalar argument
by list comprehension. -/

/-- `SchiraModel.angle_to_cortex` (lines 118-132). -/
def schiraAngleToCortex (jac : List ℚ → List ℚ → α) (jacS : ℚ → ℚ → α) :
    QIn → QIn → Except Err α
  | .seq θs, .seq ρs =>
    if θs.length = ρs.length then .ok (jac θs ρs) else .error .lengthMismatch
  | .seq θs, .num ρ => .ok (jac θs (θs.map fun _ => ρ))
  | .num θ, .seq ρs => .ok (jac (ρs.map fun _ => θ) ρs)
  | .num θ, .num ρ => .ok (jacS θ ρ)

/-- `SchiraModel.cortex_to_angle` (lines 133-147). -/
def schiraCortexToAngle (jca : List ℚ → List ℚ → α) (jcaS : ℚ → ℚ → α) :
    QIn → QIn → Except Err α
  | .seq xs, .seq ys =>
    if xs.length = ys.length then .ok (jca xs ys) else .error .lengthMismatch
  | .seq xs, .num y => .ok (jca xs (xs.map fun _ => y))
  | .num x, .seq ys => .ok (jca (ys.map fun _ => x) ys)
  | .num x, .num y => .ok (jcaS x y)

/-! ## The visual-field encoding over the reals (lines 173 and 224) -/

/-- The complex-plane encoding `rho * exp(1j * (90 - theta)/180 * pi)` of a
visual-field point, as a real-number (exact) computation; this is the
expression the code evaluates both for the inverse-mesh vertex coordinates
(line 173) and for the query points of `angle_to_cortex` (line 224). -/
noncomputable def encode (θ ρ : ℝ) : ℂ :=
  (ρ : ℂ) * Complex.exp (Complex.I * (((90 - θ : ℝ) : ℂ) / 180 * (Real.pi : ℂ)))

/-! ## State-passing forms of the two queries

The Python methods could in principle mutate `self`; the state-passing
embeddings below return the model state after the call alongside the result.
Neither method body contains an assignment to any attribute of `self`: they
only rebind locals (`theta`, `rho`, `xy`, ...) and mutate the *local* array
`res` (line 247 — which in fact raises `NameError` before assigning), so the
returned state is the input model unchanged. -/

/-- State-passing `cortex_to_angle`. -/
def rmCortexToAngleS (m : RMModel) (x y : QIn) :
    Except Err (Vec3 ⊕ List Vec3) × RMModel :=
  (rmCortexToAngle m x y, m)

/-- State-passing `angle_to_cortex`. -/
def rmAngleToCortexS (m : RMModel) (θ ρ : QIn) :
    Except Err (List PairO ⊕ List (List PairO)) × RMModel :=
  (rmAngleToCortex m θ ρ, m)

/-- The per-point value of the `cortex_to_angle` vectorized body: the
`(polar_angle, eccentricity, id)` triple at one query point, `(0, 0, 0)`
when the `id` interpolation yields no value. `c2aCore` is proved equal to
mapping this function over the query points. -/
def c2aPoint (m : RMModel) (p : ℚ × ℚ) : Vec3 :=
  match interpolateAt m.forward (m.id.map fun n => (n : ℚ)) (txPoint m.itransform p) with
  | some ar =>
    ((interpolateAt m.forward m.polar_angle (txPoint m.itransform p)).getD 0,
     ((interpolateAt m.forward m.eccentricity (txPoint m.itransform p)).getD 0, ar))
  | none => (0, (0, 0))

/-! ## Concrete test fixtures

`enc0` is a concrete encoding function used to instantiate the `enc`
parameter in closed statements; it agrees with the true visual-field
encoding at the polar angles `0`, `90` and `180` (where
`(90 - theta) * pi / 180` is `pi/2`, `0` and `-pi/2`, so the encoded point is
`(0, rho)`, `(rho, 0)` and `(0, -rho)` exactly), and those are the only
angles the fixtures use. -/

/-- Concrete encoding: exact at polar angles `0`, `90` (any non-`0`/`180`
angle maps like `90`) and `180`. -/
def enc0 (θ ρ : ℚ) : ℚ × ℚ :=
  if θ = 0 then (0, ρ) else if θ = 180 then (0, -ρ) else (ρ, 0)

/-- Single-triangle model, all three vertices labelled area 1; the inverse
mesh of area 1 is the triangle `(0,1), (1,0), (0,-1)` in visual-field
coordinates. -/
def M0 : RMModel :=
  mkModel enc0 [(0,1,2)] [(0,0),(1,0),(0,1)] [0,90,180] [1,1,1] [1,1,1] none

/-- Single-triangle model with vertex labels `1, 1, 2`: a forward-mesh
triangle whose vertices carry distinct area labels. -/
def M1 : RMModel :=
  mkModel enc0 [(0,1,2)] [(0,0),(1,0),(0,1)] [0,90,180] [1,1,1] [1,1,2] none

/-- Single-triangle model with vertex labels `1, 3, 0`: the label-0 vertex
is repaired to `mean {1, 3} = 2`, a label that matches no inverse mesh. -/
def M2 : RMModel :=
  mkModel enc0 [(0,1,2)] [(0,0),(1,0),(0,1)] [0,90,180] [1,1,1] [1,3,0] none

/-! ## Helper lemmas -/

theorem getD_range_map (f : ℕ → α) (n b : ℕ) (hb : b < n) (d : α) :
    (((List.range n).map f).getD b d) = f b := by
  rw [List.getD_eq_getElem?_getD, List.getElem?_map, List.getElem?_range hb]
  rfl

theorem repairedIds_getD (T : List Tri) (ids : List ℕ) (b : ℕ)
    (hb : b < ids.length) :
    (repairedIds T ids).getD b 0 =
      if neisOf T ids b = [] then ids.getD b 0
      else ((neisOf T ids b).map fun j => ids.getD j 0).sum / (neisOf T ids b).length := by
  unfold repairedIds
  rw [getD_range_map _ _ _ hb]

/-- The stored (integer-array) repaired label is the floor of the rational
mean of the neighbour labels. -/
theorem repair_floor (T : List Tri) (ids : List ℕ) (b : ℕ)
    (hb : b < ids.length) (hne : neisOf T ids b ≠ []) :
    (repairedIds T ids).getD b 0 =
      ⌊(((neisOf T ids b).map fun j => ((ids.getD j 0 : ℕ) : ℚ)).sum /
          ((neisOf T ids b).length : ℚ))⌋₊ := by
  rw [repairedIds_getD T ids b hb, if_neg hne]
  have hsum : (((neisOf T ids b).map fun j => ((ids.getD j 0 : ℕ) : ℚ)).sum)
      = (((neisOf T ids b).map fun j => ids.getD j 0).sum : ℕ) := by
    rw [Nat.cast_list_sum, List.map_map]
    rfl
  rw [hsum, Nat.floor_div_nat, Nat.floor_natCast]

/-- `M0` as an explicit record literal. -/
theorem M0_eq : M0 =
    ⟨enc0, ⟨[(0,1,2)], [(0,0),(1,0),(0,1)]⟩,
     [(1, ⟨[(0,1,2)], [(0,1),(1,0),(0,-1)]⟩)],
     none, none, [0,1,0], [0,0,1], [0,90,180], [1,1,1], [1,1,1]⟩ := by rfl

/-- `M1` as an explicit record literal (note both inverse meshes are empty:
the single triangle mixes the non-zero labels 1 and 2, so it is assigned to
neither area). -/
theorem M1_eq : M1 =
    ⟨enc0, ⟨[(0,1,2)], [(0,0),(1,0),(0,1)]⟩,
     [(1, ⟨[], [(0,1),(1,0),(0,-1)]⟩), (2, ⟨[], [(0,1),(1,0),(0,-1)]⟩)],
     none, none, [0,1,0], [0,0,1], [0,90,180], [1,1,1], [1,1,2]⟩ := by rfl

/-- `M2` as an explicit record literal (the label-0 vertex was repaired to
`(1 + 3) / 2 = 2`, a label with no inverse mesh). -/
theorem M2_eq : M2 =
    ⟨enc0, ⟨[(0,1,2)], [(0,0),(1,0),(0,1)]⟩,
     [(1, ⟨[], [(0,1),(1,0),(0,-1)]⟩), (3, ⟨[], [(0,1),(1,0),(0,-1)]⟩)],
     none, none, [0,1,0], [0,0,1], [0,90,180], [1,1,1], [1,3,2]⟩ := by rfl

theorem zip_map_map3 {α β : Type} (l : List α) (f g h : α → β) :
    List.zip (l.map f) (List.zip (l.map g) (l.map h))
      = l.map fun a => (f a, (g a, h a)) := by
  induction l with
  | nil => rfl
  | cons a l ih => simp [ih]

/-- The vectorized `cortex_to_angle` body is the per-point function mapped
over the query points. -/
theorem c2aCore_eq_map (m : RMModel) (xs ys : List ℚ) :
    c2aCore m xs ys = (List.zip xs ys).map fun p => c2aPoint m p := by
  simp only [c2aCore, Mesh.interpolate]
  rw [zip_map_map3, List.map_map, List.map_map]
  rfl

theorem mapExcept_ok {α β : Type} (f : α → Except Err β) (P : β → Prop) :
    ∀ (l : List α), (∀ a ∈ l, ∃ b, f a = .ok b ∧ P b) →
      ∃ res, mapExcept f l = .ok res ∧ res.length = l.length ∧ ∀ b ∈ res, P b := by
  intro l
  induction l with
  | nil => exact fun _ => ⟨[], rfl, rfl, by simp⟩
  | cons a l ih =>
    intro h
    obtain ⟨b, hb, hPb⟩ := h a (by simp)
    obtain ⟨res, hres, hlen, hP⟩ := ih fun x hx => h x (by simp [hx])
    refine ⟨b :: res, ?_, by simp [hlen], ?_⟩
    · unfold mapExcept
      rw [hb, hres]
    · intro c hc
      rcases List.mem_cons.1 hc with rfl | hc
      · exact hPb
      · exact hP c hc

theorem a2cRows_ok (m : RMModel) (coords : List (ℚ × ℚ)) (A : ℕ)
    (h : (lookupMesh A m.inverse).isSome) :
    ∃ row, a2cRows m coords A = .ok row ∧ row.length = coords.length := by
  cases hm : lookupMesh A m.inverse with
  | none => rw [hm] at h; simp at h
  | some mesh =>
    refine ⟨_, by rw [a2cRows, hm], ?_⟩
    simp [Mesh.interpolate, List.length_zip]

theorem a2cCore_ok (m : RMModel) (coords : List (ℚ × ℚ))
    (hkeys : ∀ A ∈ sortedNonzero m.id, (lookupMesh A m.inverse).isSome) :
    ∃ res, a2cCore m coords = .ok res
      ∧ res.length = (sortedNonzero m.id).length
      ∧ ∀ row ∈ res, row.length = coords.length := by
  obtain ⟨res0, hres0, hlen0, hP0⟩ :=
    mapExcept_ok (a2cRows m coords) (fun row => row.length = coords.length)
      (sortedNonzero m.id) (fun A hA => a2cRows_ok m coords A (hkeys A hA))
  cases htx : m.transform with
  | none =>
    refine ⟨res0, ?_, hlen0, hP0⟩
    simp only [a2cCore, hres0, htx]
  | some T =>
    refine ⟨res0.map (List.map (txPair T)), ?_, by simp [hlen0], ?_⟩
    · simp only [a2cCore, hres0, htx]
    · intro row hrow
      obtain ⟨row0, hrow0, rfl⟩ := List.mem_map.1 hrow
      simp [hP0 row0 hrow0]

theorem scanRow_le86 (ρs : List ℚ) (hρ : ∀ r ∈ ρs, r ≤ 86) :
    ∀ (row : List PairO) (k : ℕ), k + row.length ≤ ρs.length →
      scanRow (some ρs) row k = .ok () := by
  intro row
  induction row with
  | nil => intro k _; rfl
  | cons p rest ih =>
    intro k hk
    have hklt : k < ρs.length := by simp at hk; omega
    have hr : ρs[k]? = some ρs[k] := List.getElem?_eq_getElem hklt
    have hle : ρs[k] ≤ 86 := hρ _ (List.getElem_mem hklt)
    have htail : k + 1 + rest.length ≤ ρs.length := by simp at hk; omega
    have hri : rhoIndex (some ρs) k = .ok ρs[k] := by
      simp [rhoIndex, hr]
    have h86 : ¬(86 < ρs[k] ∧ ρs[k] ≤ 90) := by
      rintro ⟨a, _⟩
      linarith
    cases hnone : rowHasNone p with
    | true =>
      simp only [scanRow, hnone, if_true, hri, if_neg h86]
      exact ih (k+1) htail
    | false =>
      simp only [scanRow, hnone, Bool.false_eq_true, if_false]
      exact ih (k+1) htail

theorem scanRow_noNone (rho : Option (List ℚ)) :
    ∀ (row : List PairO) (k : ℕ),
      (∀ p ∈ row, rowHasNone p = false) → scanRow rho row k = .ok () := by
  intro row
  induction row with
  | nil => intro k _; rfl
  | cons p rest ih =>
    intro k h
    unfold scanRow
    rw [if_neg (by simp [h p (by simp)])]
    exact ih (k+1) fun q hq => h q (by simp [hq])

theorem scanAll_le86 (ρs : List ℚ) (hρ : ∀ r ∈ ρs, r ≤ 86) :
    ∀ (rows : List (List PairO)),
      (∀ row ∈ rows, row.length ≤ ρs.length) → scanAll (some ρs) rows = .ok () := by
  intro rows
  induction rows with
  | nil => intro _; rfl
  | cons row rest ih =>
    intro h
    unfold scanAll
    rw [scanRow_le86 ρs hρ row 0 (by simpa using h row (by simp))]
    exact ih fun r hr => h r (by simp [hr])

theorem scanAll_noNone (rho : Option (List ℚ)) :
    ∀ (rows : List (List PairO)),
      (∀ row ∈ rows, ∀ p ∈ row, rowHasNone p = false) →
      scanAll rho rows = .ok () := by
  intro rows
  induction rows with
  | nil => intro _; rfl
  | cons row rest ih =>
    intro h
    unfold scanAll
    rw [scanRow_noNone rho row 0 (h row (by simp))]
    exact ih fun r hr => h r (by simp [hr])

theorem zipWith_self_map {α β γ : Type} (f : α → β → γ) (g : α → β) :
    ∀ (l : List α), List.zipWith f l (l.map g) = l.map fun a => f a (g a) := by
  intro l
  induction l with
  | nil => rfl
  | cons a l ih => simp [ih]

theorem insertAsc_perm (a : ℕ) : ∀ l : List ℕ, (insertAsc a l).Perm (a :: l) := by
  intro l
  induction l with
  | nil => exact List.Perm.refl _
  | cons b l ih =>
    unfold insertAsc
    by_cases h : a ≤ b
    · rw [if_pos h]
    · rw [if_neg h]
      exact (ih.cons b).trans (List.Perm.swap a b l)

theorem insertAsc_sorted (a : ℕ) :
    ∀ l : List ℕ, l.Sorted (· ≤ ·) → (insertAsc a l).Sorted (· ≤ ·) := by
  intro l
  induction l with
  | nil => intro _; simp [insertAsc]
  | cons b l ih =>
    intro hs
    rw [List.sorted_cons] at hs
    unfold insertAsc
    by_cases h : a ≤ b
    · rw [if_pos h, List.sorted_cons]
      exact ⟨fun c hc => by
        rcases List.mem_cons.1 hc with rfl | hc
        · exact h
        · exact h.trans (hs.1 c hc), List.sorted_cons.2 hs⟩
    · rw [if_neg h, List.sorted_cons]
      refine ⟨fun c hc => ?_, ih hs.2⟩
      rcases (insertAsc_perm a l).mem_iff.1 hc with hc2
      rcases List.mem_cons.1 hc2 with rfl | hc3
      · exact Nat.le_of_not_le h
      · exact hs.1 c hc3

theorem sortAsc_sorted : ∀ l : List ℕ, (sortAsc l).Sorted (· ≤ ·) := by
  intro l
  induction l with
  | nil => simp [sortAsc]
  | cons a l ih => exact insertAsc_sorted a _ ih

theorem sortAsc_perm : ∀ l : List ℕ, (sortAsc l).Perm l := by
  intro l
  induction l with
  | nil => exact List.Perm.refl _
  | cons a l ih => exact (insertAsc_perm a (sortAsc l)).trans (ih.cons a)

/-- The area iteration order of `angle_to_cortex` is strictly increasing. -/
theorem sortedNonzero_sorted (ids : List ℕ) :
    (sortedNonzero ids).Sorted (· < ·) := by
  refine (sortAsc_sorted _).lt_of_le ?_
  exact (sortAsc_perm _).symm.nodup (List.nodup_dedup _)

theorem numpyBroadcast_eq {α : Type} (f : ℚ → ℚ → α) (as bs : List ℚ)
    (h : as.length = bs.length) :
    numpyBroadcast f as bs = .ok (List.zipWith f as bs) := by
  simp [numpyBroadcast, h]

/-! ## Claim theorems -/

/-- C1 (amended): at construction, a triangle is assigned to the inverse
mesh of area `A` iff the set of its vertices' *non-zero* labels is exactly
`{A}` — so triangles mixing label 0 with label `A` are included; triangles
with all labels 0, or mixing two distinct non-zero labels, are assigned to
no inverse mesh, and every triangle appears in at most one inverse mesh. -/
theorem c1_inverse_partition (triangles : List Tri) (ids : List ℕ) (A B : ℕ)
    (t : Tri) :
    (t ∈ invTriangles triangles ids A ↔
      t ∈ triangles ∧ triLabelSet ids t \ {0} = {A})
    ∧ (A ≠ B → t ∈ invTriangles triangles ids A →
        t ∉ invTriangles triangles ids B) := by
  have hmem : ∀ C, t ∈ invTriangles triangles ids C ↔
      t ∈ triangles ∧ triLabelSet ids t \ {0} = {C} := by
    intro C
    simp [invTriangles, List.mem_filter]
  refine ⟨hmem A, fun hAB h1 h2 => ?_⟩
  have e1 := ((hmem A).1 h1).2
  have e2 := ((hmem B).1 h2).2
  exact hAB (Finset.singleton_injective (e1 ▸ e2))

/-- C1 witness: in a one-triangle mesh with labels `[0, 5, 5]`, the triangle
is (by the theorem) a member of area 5's inverse mesh and not of area 3's. -/
theorem c1_inverse_partition_witness :
    (0,1,2) ∉ invTriangles [(0,1,2)] [0,5,5] 3 :=
  (c1_inverse_partition [(0,1,2)] [0,5,5] 5 3 (0,1,2)).2 (by decide)
    ((c1_inverse_partition [(0,1,2)] [0,5,5] 5 3 (0,1,2)).1.mpr (by decide))

/-- C1 counterexample: the triangle with labels `0, 5, 5` mixes label 0 with
label 5, yet it *is* assigned to area 5's inverse mesh, and not all three of
its vertices have label 5 — refuting "a triangle is assigned to the inverse
mesh of area A if and only if all three of its vertices have area label A;
triangles mixing label 0 with label A ... are assigned to no inverse
mesh". -/
theorem c1_counterexample :
    (0,1,2) ∈ invTriangles [(0,1,2)] [0,5,5] 5
    ∧ triLabels [0,5,5] (0,1,2) ≠ [5,5,5]
    ∧ (0 : ℕ) ∈ triLabels [0,5,5] (0,1,2) := by decide

/-- C2 (amended): a label-0 vertex belonging to a triangle with at least one
non-zero-label vertex has its stored label replaced by the *floor* (integer
truncation on store into the integer label array) of the arithmetic mean of
the labels of the union of its inside neighbours; a label-0 vertex with no
such neighbours keeps its label. -/
theorem c2_boundary_repair (T : List Tri) (ids : List ℕ) (b : ℕ)
    (hb : b < ids.length) :
    (neisOf T ids b ≠ [] →
      (repairedIds T ids).getD b 0 =
        ⌊(((neisOf T ids b).map fun j => ((ids.getD j 0 : ℕ) : ℚ)).sum /
            ((neisOf T ids b).length : ℚ))⌋₊)
    ∧ (neisOf T ids b = [] → (repairedIds T ids).getD b 0 = ids.getD b 0) := by
  constructor
  · intro hne
    exact repair_floor T ids b hb hne
  · intro he
    rw [repairedIds_getD T ids b hb, if_pos he]

/-- C2 witness: one triangle with labels `[0, 1, 2]`; vertex 0 has neighbour
set `{1, 2}` and ends with label `⌊(1 + 2) / 2⌋ = 1`. -/
theorem c2_boundary_repair_witness :
    (repairedIds [(0,1,2)] [0,1,2]).getD 0 0 =
      ⌊(((neisOf [(0,1,2)] [0,1,2] 0).map fun j =>
            ((([0,1,2] : List ℕ).getD j 0 : ℕ) : ℚ)).sum /
          ((neisOf [(0,1,2)] [0,1,2] 0).length : ℚ))⌋₊ :=
  (c2_boundary_repair [(0,1,2)] [0,1,2] 0 (by decide)).1 (by decide)

/-- C2 counterexample: with labels `[0, 1, 2]`, vertex 0's neighbour labels
are `{1, 2}` with arithmetic mean `3/2`, but the stored label is `1 ≠ 3/2` —
refuting "replaced by the arithmetic mean of the labels". -/
theorem c2_counterexample :
    (repairedIds [(0,1,2)] [0,1,2]).getD 0 0 = 1
    ∧ ((((repairedIds [(0,1,2)] [0,1,2]).getD 0 0 : ℕ) : ℚ))
        ≠ ((neisOf [(0,1,2)] [0,1,2] 0).map fun j =>
              ((([0,1,2] : List ℕ).getD j 0 : ℕ) : ℚ)).sum /
            ((neisOf [(0,1,2)] [0,1,2] 0).length : ℚ) := by
  have h1 : (repairedIds [(0,1,2)] [0,1,2]).getD 0 0 = 1 := by decide
  have h2 : neisOf [(0,1,2)] [0,1,2] 0 = [1, 2] := by decide
  refine ⟨h1, ?_⟩
  rw [h1, h2]
  norm_num

/-- C5: for a vectorized `cortex_to_angle` call, any query point at which the
interpolator returns "no value" for the area field produces exactly the
triple `(0, 0, 0)` in the result — and the call itself succeeds, returning
one row per point. -/
theorem c5_out_of_hull (m : RMModel) (xs ys : List ℚ)
    (hlen : xs.length = ys.length) (j : ℕ) (p : ℚ × ℚ)
    (hp : (List.zip xs ys).get? j = some p)
    (hmiss : interpolateAt m.forward (m.id.map fun n => (n : ℚ))
        (txPoint m.itransform p) = none) :
    rmCortexToAngle m (.seq xs) (.seq ys) = .ok (.inr (c2aCore m xs ys))
    ∧ (c2aCore m xs ys).get? j = some (0, 0, 0) := by
  constructor
  · simp [rmCortexToAngle, hlen]
  · rw [c2aCore_eq_map, List.get?_map, hp, Option.map_some']
    unfold c2aPoint
    rw [hmiss]

/-- C5 witness: the point `(100, 100)` lies far outside `M1`'s forward mesh;
`cortex_to_angle` returns `(0, 0, 0)` for it. -/
theorem c5_out_of_hull_witness :
    rmCortexToAngle M1 (.seq [100]) (.seq [100]) =
      .ok (.inr (c2aCore M1 [100] [100]))
    ∧ (c2aCore M1 [100] [100]).get? 0 = some (0, 0, 0) := by
  refine c5_out_of_hull M1 [100] [100] rfl 0 (100, 100) rfl ?_
  rw [M1_eq]
  norm_num [txPoint, interpolateAt, List.findSome?, baryValue, det2]

/-- C6 (code bug): an `angle_to_cortex` query at `(theta, rho) = (90, 89)`
on `M0` misses the inverse mesh with `rho` in `(86, 90]`; instead of
retrying with `rho - 0.5` as line 247 intends
(`res[i] = angle_to_cortex(theta[k], rho[k] - 0.5)`), the reference to the
undefined module-level name `angle_to_cortex` (missing `self.`) raises
`NameError`. -/
theorem c6_fallback_name_error :
    rmAngleToCortex M0 (.num 90) (.num 89) = .error .nameError := by
  rw [M0_eq]
  simp only [rmAngleToCortex, a2cVecL, numpyBroadcast, List.length_cons,
    List.length_nil, if_pos, List.zipWith_cons_cons, List.zipWith_nil_right,
    a2cCore, mapExcept, a2cRows, lookupMesh,
    Mesh.interpolate, List.map_cons, List.map_nil]
  norm_num [enc0, sortedNonzero, sortAsc, insertAsc, interpolateAt,
    List.findSome?, baryValue, det2, scanAll, scanRow, rowHasNone, rhoIndex,
    mapExcept, a2cRows, lookupMesh]

/-- C8: the complex-plane encoding `rho * exp(1j*(90 - theta)/180*pi)`
computed by the code (lines 173 and 224) satisfies
`Re = rho*cos((90 - theta)*pi/180)` and `Im = rho*sin((90 - theta)*pi/180)`. -/
theorem c8_encoding (θ ρ : ℝ) :
    (encode θ ρ).re = ρ * Real.cos ((90 - θ) * Real.pi / 180)
    ∧ (encode θ ρ).im = ρ * Real.sin ((90 - θ) * Real.pi / 180) := by
  have key : Complex.I * (((90 - θ : ℝ) : ℂ) / 180 * (Real.pi : ℂ))
      = (((90 - θ) * Real.pi / 180 : ℝ) : ℂ) * Complex.I := by
    push_cast
    ring
  have h1 := Complex.exp_ofReal_mul_I_re ((90 - θ) * Real.pi / 180)
  have h2 := Complex.exp_ofReal_mul_I_im ((90 - θ) * Real.pi / 180)
  unfold encode
  rw [key]
  constructor
  · rw [Complex.mul_re, Complex.ofReal_re, Complex.ofReal_im, h1, h2]
    ring
  · rw [Complex.mul_im, Complex.ofReal_re, Complex.ofReal_im, h1, h2]
    ring

/-- C9: neither query operation mutates the model state: the state-passing
embeddings return the model unchanged — in particular the forward mesh, the
inverse meshes, the data arrays (including area labels) and the transform
and its inverse are identical before and after every query. -/
theorem c9_no_mutation (m : RMModel) (x y θ ρ : QIn) :
    (rmCortexToAngleS m x y).2 = m
    ∧ (rmAngleToCortexS m θ ρ).2 = m
    ∧ (rmCortexToAngleS m x y).2.forward = m.forward
    ∧ (rmAngleToCortexS m θ ρ).2.inverse = m.inverse
    ∧ (rmAngleToCortexS m θ ρ).2.id = m.id
    ∧ (rmCortexToAngleS m x y).2.transform = m.transform
    ∧ (rmCortexToAngleS m x y).2.itransform = m.itransform :=
  ⟨rfl, rfl, rfl, rfl, rfl, rfl, rfl⟩

/-- C10 (amended): every stored area label of a constructed model is a
natural number (the integer-typed label array), and a repaired label equals
the integer truncation (floor) of the neighbour-label mean; however, query
results are *not* integral in general (see the counterexample: interpolation
of integer labels yields fractional values). -/
theorem c10_stored_labels (enc : ℚ → ℚ → ℚ × ℚ) (tris : List Tri)
    (coords : List (ℚ × ℚ)) (angles eccens : List ℚ) (ids : List ℕ)
    (tx : Option Mat3) (b : ℕ) (hb : b < ids.length) :
    ∃ n : ℕ,
      ((mkModel enc tris coords angles eccens ids tx).id.getD b 0 : ℚ) = (n : ℚ)
      ∧ (neisOf tris ids b ≠ [] →
          (n : ℚ) =
            ⌊(((neisOf tris ids b).map fun j => ((ids.getD j 0 : ℕ) : ℚ)).sum /
                ((neisOf tris ids b).length : ℚ))⌋₊) := by
  refine ⟨(repairedIds tris ids).getD b 0, rfl, fun hne => ?_⟩
  exact_mod_cast congrArg (fun n : ℕ => (n : ℚ)) (repair_floor tris ids b hb hne)

/-- C10 witness: on `M2`'s inputs, the repaired vertex 2 stores the natural
number `⌊(1 + 3)/2⌋ = 2`. -/
theorem c10_stored_labels_witness :
    (2 : ℕ) < ([1,3,0] : List ℕ).length
    ∧ ∃ n : ℕ,
        ((mkModel enc0 [(0,1,2)] [(0,0),(1,0),(0,1)] [0,90,180] [1,1,1]
            [1,3,0] none).id.getD 2 0 : ℚ) = (n : ℚ)
        ∧ (neisOf [(0,1,2)] [1,3,0] 2 ≠ [] →
            (n : ℚ) =
              ⌊(((neisOf [(0,1,2)] [1,3,0] 2).map fun j =>
                    ((([1,3,0] : List ℕ).getD j 0 : ℕ) : ℚ)).sum /
                  ((neisOf [(0,1,2)] [1,3,0] 2).length : ℚ))⌋₊) :=
  ⟨by decide, c10_stored_labels enc0 [(0,1,2)] [(0,0),(1,0),(0,1)] [0,90,180]
    [1,1,1] [1,3,0] none 2 (by decide)⟩

/-- C10 counterexample: `cortex_to_angle` on `M1` at the interior point
`(1/3, 1/3)` returns area value `4/3`, which is not an integer — a
fractional label *is* observable through the model's query results. -/
theorem c10_counterexample :
    rmCortexToAngle M1 (.num (1/3)) (.num (1/3)) =
      .ok (.inl (90, 1, (4 : ℚ)/3))
    ∧ ((4 : ℚ)/3).den ≠ 1 := by
  constructor
  · rw [M1_eq]
    simp only [rmCortexToAngle, c2aCore, Mesh.interpolate, txPoint,
      List.zip_cons_cons, List.zip_nil_right, List.map_cons, List.map_nil]
    norm_num [interpolateAt, List.findSome?, baryValue, det2]
  · norm_num

/-- C3 (amended): `SchiraModel` raises the explicit length-mismatch error
for unequal-length sequence inputs on both operations; `RetinotopyMeshModel`
performs no length check — `angle_to_cortex` fails with a numpy broadcast
error when the unequal lengths are both different from 1 (and silently
broadcasts a length-1 sequence, see the counterexample), and
`cortex_to_angle` fails with a ragged-array error. -/
theorem c3_length_mismatch :
    (∀ (α : Type) (jac : List ℚ → List ℚ → α) (jacS : ℚ → ℚ → α)
        (θs ρs : List ℚ), θs.length ≠ ρs.length →
        schiraAngleToCortex jac jacS (.seq θs) (.seq ρs) = .error .lengthMismatch
        ∧ schiraCortexToAngle jac jacS (.seq θs) (.seq ρs) = .error .lengthMismatch)
    ∧ (∀ (m : RMModel) (θs ρs : List ℚ),
        θs.length ≠ ρs.length → θs.length ≠ 1 → ρs.length ≠ 1 →
          rmAngleToCortex m (.seq θs) (.seq ρs) = .error .broadcastError)
    ∧ (∀ (m : RMModel) (xs ys : List ℚ), xs.length ≠ ys.length →
        rmCortexToAngle m (.seq xs) (.seq ys) = .error .raggedArray) := by
  refine ⟨fun α jac jacS θs ρs h => ⟨?_, ?_⟩,
    fun m θs ρs h h1 h2 => ?_, fun m xs ys h => ?_⟩
  · simp [schiraAngleToCortex, h]
  · simp [schiraCortexToAngle, h]
  · simp [rmAngleToCortex, a2cVecL, numpyBroadcast, h, h1, h2]
  · simp [rmCortexToAngle, h]

/-- C3 witness: concrete unequal-length calls hitting each of the three
failure modes. -/
theorem c3_length_mismatch_witness :
    @schiraAngleToCortex ℕ (fun _ _ => 0) (fun _ _ => 0)
        (.seq [1,2,3]) (.seq [1,2]) = .error .lengthMismatch
    ∧ @schiraCortexToAngle ℕ (fun _ _ => 0) (fun _ _ => 0)
        (.seq [1,2,3]) (.seq [1,2]) = .error .lengthMismatch
    ∧ rmAngleToCortex M0 (.seq [90,90,90]) (.seq [1,1]) = .error .broadcastError
    ∧ rmCortexToAngle M0 (.seq [0,0,0]) (.seq [0,0]) = .error .raggedArray :=
  ⟨(c3_length_mismatch.1 ℕ (fun _ _ => 0) (fun _ _ => 0) [1,2,3] [1,2] (by decide)).1,
   (c3_length_mismatch.1 ℕ (fun _ _ => 0) (fun _ _ => 0) [1,2,3] [1,2] (by decide)).2,
   c3_length_mismatch.2.1 M0 [90,90,90] [1,1] (by decide) (by decide) (by decide),
   c3_length_mismatch.2.2 M0 [0,0,0] [0,0] (by decide)⟩

/-- C3 counterexample: `RetinotopyMeshModel.angle_to_cortex` with sequences
of unequal lengths 3 and 1 does *not* fail — numpy broadcasts the length-1
`rho` and a result is produced — refuting "for every model variant, ...
two sequence inputs of unequal length fails with a LengthMismatch error ...
and no result value is produced". -/
theorem c3_counterexample :
    rmAngleToCortex M0 (.seq [90,90,90]) (.seq [1/2]) =
      .ok (.inr [[(some (1/2), some (1/4)),
                  (some (1/2), some (1/4)),
                  (some (1/2), some (1/4))]])
    ∧ ([90, 90, 90] : List ℚ).length ≠ ([1/2] : List ℚ).length := by
  constructor
  · rw [M0_eq]
    simp only [rmAngleToCortex, a2cVecL, numpyBroadcast, List.length_cons,
      List.length_nil, a2cCore, mapExcept, a2cRows, lookupMesh,
      Mesh.interpolate, List.map_cons, List.map_nil]
    norm_num [enc0, sortedNonzero, sortAsc, insertAsc, interpolateAt,
      List.findSome?, baryValue, det2, scanAll, scanRow, rowHasNone, rhoIndex,
      mapExcept, a2cRows, lookupMesh]
  · decide

/-- C4 (amended): for `SchiraModel` a scalar argument in either position of
either operation is broadcast to the sequence's length and the call equals
the two-sequence call. For `RetinotopyMeshModel`, only `angle_to_cortex`
with a sequence `theta` and scalar `rho` broadcasts — and only when no
query point misses its inverse mesh (a miss makes the fallback scan index
the 0-d `rho` array); the remaining mixed scalar/sequence cases fail with
an error instead of broadcasting (see the counterexample). -/
theorem c4_broadcast :
    (∀ (α : Type) (jac : List ℚ → List ℚ → α) (jacS : ℚ → ℚ → α)
        (θ : ℚ) (l : List ℚ),
      schiraAngleToCortex jac jacS (.num θ) (.seq l)
          = schiraAngleToCortex jac jacS (.seq (l.map fun _ => θ)) (.seq l)
      ∧ schiraAngleToCortex jac jacS (.seq l) (.num θ)
          = schiraAngleToCortex jac jacS (.seq l) (.seq (l.map fun _ => θ))
      ∧ schiraCortexToAngle jac jacS (.num θ) (.seq l)
          = schiraCortexToAngle jac jacS (.seq (l.map fun _ => θ)) (.seq l)
      ∧ schiraCortexToAngle jac jacS (.seq l) (.num θ)
          = schiraCortexToAngle jac jacS (.seq l) (.seq (l.map fun _ => θ)))
    ∧ (∀ (m : RMModel) (θs : List ℚ) (ρ : ℚ) (res : List (List PairO)),
        a2cCore m (θs.map fun t => m.enc t ρ) = .ok res →
        (∀ row ∈ res, ∀ p ∈ row, rowHasNone p = false) →
        rmAngleToCortex m (.seq θs) (.num ρ)
            = rmAngleToCortex m (.seq θs) (.seq (θs.map fun _ => ρ))
        ∧ rmAngleToCortex m (.seq θs) (.num ρ) = .ok (.inr res)) := by
  constructor
  · intro α jac jacS θ l
    refine ⟨?_, ?_, ?_, ?_⟩ <;>
      simp [schiraAngleToCortex, schiraCortexToAngle]
  · intro m θs ρ res hres hnone
    have hscan0 := scanAll_noNone none res hnone
    have hscan1 := scanAll_noNone (some (θs.map fun _ => ρ)) res hnone
    have hcoords : List.zipWith (fun t r => m.enc t r) θs (θs.map fun _ => ρ)
        = θs.map fun t => m.enc t ρ := zipWith_self_map _ _ θs
    have hS : a2cVecS m θs ρ = .ok res := by
      unfold a2cVecS
      simp only [hres, hscan0]
    have hL : a2cVecL m θs (θs.map fun _ => ρ) = .ok res := by
      unfold a2cVecL
      rw [numpyBroadcast_eq (fun t r => m.enc t r) θs (θs.map fun _ => ρ) (by simp)]
      simp only [hcoords, hres, hscan1]
    constructor
    · simp only [rmAngleToCortex, hS, hL]
    · simp only [rmAngleToCortex, hS]

/-- C4 witness: a concrete Schira broadcast and a concrete mesh-model
`angle_to_cortex` call with scalar `rho = 1/2` that equals its two-sequence
counterpart. -/
theorem c4_broadcast_witness :
    (@schiraAngleToCortex ℕ (fun a b => a.length + b.length) (fun _ _ => 0)
        (.num 7) (.seq [1,2])
      = @schiraAngleToCortex ℕ (fun a b => a.length + b.length) (fun _ _ => 0)
        (.seq (([1,2] : List ℚ).map fun _ => 7)) (.seq [1,2]))
    ∧ rmAngleToCortex M0 (.seq [90]) (.num (1/2))
        = rmAngleToCortex M0 (.seq [90]) (.seq (([90] : List ℚ).map fun _ => (1/2)))
    ∧ rmAngleToCortex M0 (.seq [90]) (.num (1/2))
        = .ok (.inr [[(some (1/2), some (1/4))]]) := by
  have h1 : a2cCore M0 (([90] : List ℚ).map fun t => M0.enc t (1/2))
      = .ok [[(some (1/2), some (1/4))]] := by
    rw [M0_eq]
    simp only [a2cCore, mapExcept, a2cRows, lookupMesh, Mesh.interpolate,
      List.map_cons, List.map_nil]
    norm_num [enc0, sortedNonzero, sortAsc, insertAsc, interpolateAt,
      List.findSome?, baryValue, det2, mapExcept, a2cRows, lookupMesh]
  have h2 : ∀ row ∈ [[((some (1/2) : Option ℚ), (some (1/4) : Option ℚ))]],
      ∀ p ∈ row, rowHasNone p = false := by decide
  exact ⟨(c4_broadcast.1 ℕ (fun a b => a.length + b.length) (fun _ _ => 0) 7 [1,2]).1,
    (c4_broadcast.2 M0 [90] (1/2) _ h1 h2).1,
    (c4_broadcast.2 M0 [90] (1/2) _ h1 h2).2⟩

/-- C4 counterexample: `RetinotopyMeshModel.cortex_to_angle` with a sequence
`x` and a scalar `y` fails with a ragged-array error (the code builds
`np.asarray([x, y])` from a list and a scalar), while the corresponding
two-sequence call succeeds — refuting "for both angle_to_cortex and
cortex_to_angle, ... the scalar is broadcast ... and the call returns the
same result as if both inputs were length-n sequences". -/
theorem c4_counterexample :
    rmCortexToAngle M1 (.seq [0,1]) (.num 0) = .error .raggedArray
    ∧ rmCortexToAngle M1 (.seq [0,1]) (.seq [0,0]) =
        .ok (.inr [(0,(1,1)), (90,(1,1))]) := by
  refine ⟨rfl, ?_⟩
  rw [M1_eq]
  simp only [rmCortexToAngle, c2aCore, Mesh.interpolate, txPoint,
    List.zip_cons_cons, List.zip_nil_right, List.map_cons, List.map_nil]
  norm_num [interpolateAt, List.findSome?, baryValue, det2]

/-- C7 (amended): provided every distinct non-zero *post-repair* label has
an inverse mesh (repair can mint labels that do not — see the
counterexample) and no fallback retry triggers (all `rho` at most 86),
`angle_to_cortex` with two equal-length sequences returns one block per
distinct non-zero label of `self.data['id']` — the iteration order being
strictly increasing in the label — each block holding one `(x, y)` entry
per input pair; with scalar input it returns one `(x, y)` entry per such
label in the same order. -/
theorem c7_output_shape (m : RMModel) (θs ρs : List ℚ)
    (hn : θs.length = ρs.length)
    (hkeys : ∀ A ∈ sortedNonzero m.id, (lookupMesh A m.inverse).isSome)
    (hρ : ∀ r ∈ ρs, r ≤ 86) :
    (∃ res, rmAngleToCortex m (.seq θs) (.seq ρs) = .ok (.inr res)
        ∧ res.length = (sortedNonzero m.id).length
        ∧ ∀ row ∈ res, row.length = θs.length)
    ∧ List.Sorted (· < ·) (sortedNonzero m.id)
    ∧ (∀ (θ ρ : ℚ), ρ ≤ 86 →
        ∃ out, rmAngleToCortex m (.num θ) (.num ρ) = .ok (.inl out)
          ∧ out.length = (sortedNonzero m.id).length) := by
  have key : ∀ (θs' ρs' : List ℚ), θs'.length = ρs'.length →
      (∀ r ∈ ρs', r ≤ 86) →
      ∃ res, a2cVecL m θs' ρs' = .ok res
        ∧ res.length = (sortedNonzero m.id).length
        ∧ ∀ row ∈ res, row.length = θs'.length := by
    intro θs' ρs' hn' hρ'
    obtain ⟨res, hres, hlen, hrows⟩ :=
      a2cCore_ok m (List.zipWith (fun θ ρ => m.enc θ ρ) θs' ρs') hkeys
    have hrows' : ∀ row ∈ res, row.length = θs'.length := by
      intro row hrow
      rw [hrows row hrow, List.length_zipWith]
      omega
    have hscan : scanAll (some ρs') res = .ok () := by
      apply scanAll_le86 ρs' hρ'
      intro row hrow
      rw [hrows' row hrow]
      exact le_of_eq hn'
    refine ⟨res, ?_, hlen, hrows'⟩
    unfold a2cVecL
    rw [numpyBroadcast_eq _ _ _ hn']
    simp only [hres, hscan]
  refine ⟨?_, sortedNonzero_sorted _, ?_⟩
  · obtain ⟨res, hres, hlen, hrows⟩ := key θs ρs hn hρ
    exact ⟨res, by simp only [rmAngleToCortex, hres], hlen, hrows⟩
  · intro θ ρ hρ1
    have hb : ∀ r ∈ ([ρ] : List ℚ), r ≤ 86 := by
      intro r hr
      rw [List.mem_singleton.1 hr]
      exact hρ1
    obtain ⟨res, hres, hlen, hrows⟩ := key [θ] [ρ] rfl hb
    refine ⟨res.map fun row => row.getD 0 (none, none), ?_, by simp [hlen]⟩
    simp only [rmAngleToCortex, hres]

/-- C7 witness: on `M0` (one area), a vectorized and a scalar query with the
hypotheses discharged concretely. -/
theorem c7_output_shape_witness :
    ([90] : List ℚ).length = ([1] : List ℚ).length
    ∧ (∀ A ∈ sortedNonzero M0.id, (lookupMesh A M0.inverse).isSome)
    ∧ (∀ r ∈ ([1] : List ℚ), r ≤ 86)
    ∧ ((∃ res, rmAngleToCortex M0 (.seq [90]) (.seq [1]) = .ok (.inr res)
          ∧ res.length = (sortedNonzero M0.id).length
          ∧ ∀ row ∈ res, row.length = ([90] : List ℚ).length)
      ∧ List.Sorted (· < ·) (sortedNonzero M0.id)
      ∧ (∀ (θ ρ : ℚ), ρ ≤ 86 →
          ∃ out, rmAngleToCortex M0 (.num θ) (.num ρ) = .ok (.inl out)
            ∧ out.length = (sortedNonzero M0.id).length)) := by
  have h1 : ∀ A ∈ sortedNonzero M0.id, (lookupMesh A M0.inverse).isSome := by
    decide
  have h2 : ∀ r ∈ ([1] : List ℚ), r ≤ 86 := by
    intro r hr
    rw [List.mem_singleton.1 hr]
    norm_num
  exact ⟨rfl, h1, h2, c7_output_shape M0 [90] [1] rfl h1 h2⟩

/-- C7 counterexample: on `M2` the boundary repair minted the label 2
(mean of areas 1 and 3), so `angle_to_cortex` iterates over `[1, 2, 3]`,
looks up `self.inverse[2]` and fails with a `KeyError` instead of returning
one block per distinct non-zero area of the input labelling
(`sortedNonzero [1,3,0] = [1,3]`, two areas) — refuting "returns one (x, y)
pair per known visual area ... with total length equal to the number of
distinct non-zero areas". -/
theorem c7_counterexample :
    rmAngleToCortex M2 (.seq [90]) (.seq [1]) = .error (.keyError 2)
    ∧ sortedNonzero [1,3,0] = [1,3] := by
  constructor
  · rw [M2_eq]
    simp only [rmAngleToCortex, a2cVecL, numpyBroadcast, List.length_cons,
      List.length_nil, a2cCore, mapExcept, a2cRows, lookupMesh,
      Mesh.interpolate, List.map_cons, List.map_nil]
    norm_num [enc0, sortedNonzero, sortAsc, insertAsc, interpolateAt,
      List.findSome?, baryValue, det2, mapExcept, a2cRows, lookupMesh]
  · decide
